import Mathlib

/-!
# CrisisVerify: the keyword matcher of `src/app.js`

A shallow embedding of `simulateVertexAIVerification` (src/app.js, lines 82-139)
together with the built-in string operations it calls.

Modelling conventions.

* A JavaScript string is its sequence of UTF-16 code units (`JSString`), so that
  `s.length` is `List.length`.
* `String.prototype.toLowerCase` is a parameter `toLowerCase` of the embedding:
  every general theorem holds for any lower-casing function.  Concrete runs use
  `asciiToLowerCase`, which agrees with the built-in on ASCII strings.
* The global `trustedData` is passed explicitly as a list of reports, visited in
  order by `for ... of`.
* The awaited delay does not influence the returned value and is left out.
* Numbers are exact rationals: `matchCount / Math.max(queryWords.length, 1)` is
  computed in `ℚ`, and a decimal literal denotes its decimal value.  The rounding
  of double-precision arithmetic is not modelled; the quotient of two counts and
  the literal `0.3` compare in doubles as they do in `ℚ` for every token count a
  JavaScript string can reach.
-/

namespace CrisisVerify

/-- A JavaScript string: the list of its UTF-16 code units. -/
abbrev JSString := List Nat

/-- The code units of a Lean string literal (used for ASCII literals only). -/
def str (s : String) : JSString := s.toList.map Char.toNat

/-- Code units matched by the regular expression class `\s` (WhiteSpace and
LineTerminator of ECMAScript): TAB, LF, VT, FF, CR, SP, NBSP, U+1680,
U+2000..U+200A, U+2028, U+2029, U+202F, U+205F, U+3000, U+FEFF. -/
def isWhiteSpace (u : Nat) : Bool :=
  (9 ≤ u && u ≤ 13) || u == 32 || u == 160 || u == 5760 ||
  (8192 ≤ u && u ≤ 8202) || u == 8232 || u == 8233 || u == 8239 ||
  u == 8287 || u == 12288 || u == 65279

/-- The scanning loop of `split(/\s+/)`.  `cur` holds (reversed) the code units
read since the end of the last separator, `inSep` tells that the previous code
unit belonged to a separator match.  A greedy `\s+` match swallows a whole run
of white space, so a white-space code unit that follows another one extends the
current separator; the first one of a run closes the current token, which is
pushed even when it is empty.  The rest of the string after the last separator
is pushed at the end, again even when it is empty. -/
def splitLoop : JSString → Bool → JSString → List JSString
  | [], _, cur => [cur.reverse]
  | u :: rest, inSep, cur =>
    if isWhiteSpace u then
      if inSep then splitLoop rest true cur
      else cur.reverse :: splitLoop rest true []
    else splitLoop rest false (u :: cur)

/-- The built-in call `s.split(/\s+/)`. -/
def split (s : JSString) : List JSString := splitLoop s false []

/-- The built-in call `haystack.includes(needle)`: `needle` occurs in `haystack` as
a contiguous run of code units (the empty string occurs everywhere). -/
def includes : JSString → JSString → Bool
  | [], needle => needle.isEmpty
  | u :: rest, needle => needle.isPrefixOf (u :: rest) || includes rest needle

/-- ASCII lower-casing of one code unit: `A`..`Z` go to `a`..`z`. -/
def asciiLowerUnit (u : Nat) : Nat := if 65 ≤ u ∧ u ≤ 90 then u + 32 else u

/-- The restriction of `toLowerCase` to ASCII strings, used for concrete runs. -/
def asciiToLowerCase (s : JSString) : JSString := s.map asciiLowerUnit

/-- One entry of `trustedData` (a record of `data.json`).  `id` is the text that
the template placeholder `${bestMatch.id}` produces.  `status` is `none` when the
record has no `status` field; the comparisons `=== 'scam'` and `=== 'false'` are
then false. -/
structure Report where
  id : JSString
  event : JSString
  location : JSString
  details : JSString
  status : Option JSString
  confidence : ℚ
  deriving DecidableEq

/-- The object returned by `simulateVertexAIVerification`. -/
structure Verdict where
  status : JSString
  confidence : ℚ
  reason : JSString
  deriving DecidableEq

/-- Line 91: `(report.event + " " + report.location + " " + report.details).toLowerCase()`. -/
def reportContent (toLowerCase : JSString → JSString) (report : Report) : JSString :=
  toLowerCase (report.event ++ str " " ++ report.location ++ str " " ++ report.details)

/-- Lines 95-100: the `forEach` that increments `matchCount` for every word with
`word.length > 3 && reportContent.includes(word)`. -/
def matchCount (queryWords : List JSString) (content : JSString) : Nat :=
  queryWords.foldl
    (fun count word => if word.length > 3 && includes content word then count + 1 else count) 0

/-- Line 102: `matchCount / Math.max(queryWords.length, 1)`. -/
def scoreOf (queryWords : List JSString) (content : JSString) : ℚ :=
  (matchCount queryWords content : ℚ) / (max queryWords.length 1 : ℕ)

/-- The value of `score` for `report` (lines 91-102 of the loop body). -/
def score (toLowerCase : JSString → JSString) (query : JSString) (report : Report) : ℚ :=
  scoreOf (split query) (reportContent toLowerCase report)

/-- The two loop variables `bestMatch` and `highestScore`. -/
structure Best where
  bestMatch : Option Report
  highestScore : ℚ
  deriving DecidableEq

/-- One iteration of the `for (const report of trustedData)` loop (lines 90-108). -/
def loopBody (toLowerCase : JSString → JSString) (query : JSString) (st : Best)
    (report : Report) : Best :=
  if score toLowerCase query report > st.highestScore then
    { bestMatch := some report, highestScore := score toLowerCase query report }
  else st

/-- Lines 88-108: the loop started from `bestMatch = null`, `highestScore = 0`. -/
def findBest (toLowerCase : JSString → JSString) (trustedData : List Report)
    (query : JSString) : Best :=
  trustedData.foldl (loopBody toLowerCase query) { bestMatch := none, highestScore := 0 }

/-- The verdict of lines 113-117. -/
def scamVerdict (r : Report) : Verdict :=
  { status := str "scam"
    confidence := r.confidence
    reason := str "AI Analysis: Matches known misinformation pattern (Ref: " ++ r.id ++ str ")." }

/-- The verdict of lines 119-123. -/
def falseVerdict (r : Report) : Verdict :=
  { status := str "scam"
    confidence := r.confidence
    reason := str "AI Verification: Official sources confirm this event is NOT occurring (Ref: "
      ++ r.id ++ str ")." }

/-- The verdict of lines 125-129. -/
def verifiedVerdict (r : Report) : Verdict :=
  { status := str "verified"
    confidence := r.confidence
    reason := str "AI Verification: Corroborated by official data (Ref: " ++ r.id ++ str ")." }

/-- The verdict of lines 133-137. -/
def pendingVerdict : Verdict :=
  { status := str "pending"
    confidence := 0.45
    reason := str "AI Analysis: Insufficient data to verify. Flagged for manual review." }

/-- Lines 112-130: the verdict for a matching official report, by its `status`. -/
def matchedVerdict (bestMatch : Report) : Verdict :=
  if bestMatch.status = some (str "scam") then scamVerdict bestMatch
  else if bestMatch.status = some (str "false") then falseVerdict bestMatch
  else verifiedVerdict bestMatch

/-- Lines 110-138: the verdict chosen from the final loop variables; the test
`bestMatch && highestScore > 0.3` fails when `bestMatch` is still `null`. -/
def determineResult (st : Best) : Verdict :=
  match st.bestMatch with
  | some bestMatch => if st.highestScore > 0.3 then matchedVerdict bestMatch else pendingVerdict
  | none => pendingVerdict

/-- Line 85: `(text + " " + location).toLowerCase()`. -/
def queryString (toLowerCase : JSString → JSString) (text location : JSString) : JSString :=
  toLowerCase (text ++ str " " ++ location)

/-- The function `simulateVertexAIVerification(text, location)` of src/app.js, with the
global `trustedData` and the built-in `toLowerCase` made explicit. -/
def simulateVertexAIVerification (toLowerCase : JSString → JSString)
    (trustedData : List Report) (text location : JSString) : Verdict :=
  determineResult (findBest toLowerCase trustedData (queryString toLowerCase text location))

/-- Spec-side notion of "the best-matching report": `r` stands in the store at a place
where every earlier report scores strictly less and every later one scores at most as
much, i.e. `r` is the first report whose score is the maximum over the store. -/
def IsFirstMax (toLowerCase : JSString → JSString) (query : JSString)
    (trustedData : List Report) (r : Report) : Prop :=
  ∃ pre post, trustedData = pre ++ r :: post ∧
    (∀ p ∈ pre, score toLowerCase query p < score toLowerCase query r) ∧
    (∀ p ∈ post, score toLowerCase query p ≤ score toLowerCase query r)

/-- The reference report of the end-to-end scenario of the specification
(`event: "Flooding"`, `location: "Sector 4"`, `details: "Water levels dangerous"`,
`confidence: 0.98`), for a given `id` and `status`. -/
def floodingReport (id : JSString) (status : Option JSString) : Report :=
  { id := id
    event := str "Flooding"
    location := str "Sector 4"
    details := str "Water levels dangerous"
    status := status
    confidence := 0.98 }

/-- Spec-side count of the maximal runs of code units satisfying `p` in a string;
the flag tells that the code unit just before the string satisfied `p`, so that a run
continuing it is not counted again. -/
def countRuns (p : Nat → Bool) : Bool → JSString → Nat
  | _, [] => 0
  | inRun, u :: rest => (if p u && !inRun then 1 else 0) + countRuns p (p u) rest

/-- Spec-side: the number of maximal non-white-space runs of `s`. -/
def wordCount (s : JSString) : Nat := countRuns (fun u => !isWhiteSpace u) false s

/-- Spec-side: whether the last code unit of the string is white space (`dflt` for the
empty string). -/
def lastIsWhiteSpace : Bool → JSString → Bool
  | dflt, [] => dflt
  | _, u :: rest => lastIsWhiteSpace (isWhiteSpace u) rest

/-- Spec-side: 1 when `s` is empty or begins with white space, else 0. -/
def leadingEmpty : JSString → Nat
  | [] => 1
  | u :: _ => if isWhiteSpace u then 1 else 0

/-- Spec-side: 1 when `s` is non-empty and ends with white space, else 0. -/
def trailingEmpty (s : JSString) : Nat := if lastIsWhiteSpace false s then 1 else 0

/-! ## Counting matches -/

theorem foldl_count_eq (p : JSString → Bool) (l : List JSString) (n : Nat) :
    l.foldl (fun count word => if p word then count + 1 else count) n
      = n + (l.filter p).length := by
  induction l generalizing n with
  | nil => simp
  | cons w l ih =>
    simp only [List.foldl_cons, List.filter_cons]
    by_cases h : p w = true
    · simp [h, ih]; omega
    · simp [h, ih]

theorem matchCount_eq_filter (queryWords : List JSString) (content : JSString) :
    matchCount queryWords content
      = (queryWords.filter (fun w => decide (w.length > 3) && includes content w)).length := by
  unfold matchCount
  have h := foldl_count_eq (fun w => decide (w.length > 3) && includes content w) queryWords 0
  simpa using h

theorem includes_iff (hay needle : JSString) : includes hay needle = true ↔ needle <:+: hay := by
  induction hay with
  | nil => cases needle <;> simp [includes]
  | cons u rest ih =>
    rw [includes, Bool.or_eq_true, ih, List.infix_cons_iff, List.isPrefixOf_iff_prefix]

theorem matchCount_le_significant (queryWords : List JSString) (content : JSString) :
    matchCount queryWords content ≤ (queryWords.filter (fun w => decide (w.length > 3))).length := by
  rw [matchCount_eq_filter]
  have : queryWords.filter (fun w => decide (w.length > 3) && includes content w)
      = (queryWords.filter (fun w => decide (w.length > 3))).filter (fun w => includes content w) := by
    rw [List.filter_filter]
    congr 1
    funext w
    exact Bool.and_comm _ _
  rw [this]
  exact List.length_filter_le _ _

theorem splitLoop_ne_nil (s : JSString) (inSep : Bool) (cur : JSString) :
    splitLoop s inSep cur ≠ [] := by
  induction s generalizing inSep cur with
  | nil => simp [splitLoop]
  | cons u rest ih =>
    unfold splitLoop
    split
    · split
      · exact ih _ _
      · simp
    · exact ih _ _

theorem split_length_pos (s : JSString) : 0 < (split s).length :=
  List.length_pos.mpr (splitLoop_ne_nil s false [])

/-! ## The selection loop -/

theorem foldl_loopBody_of_le (toLowerCase : JSString → JSString) (query : JSString)
    (l : List Report) (st : Best)
    (h : ∀ p ∈ l, score toLowerCase query p ≤ st.highestScore) :
    l.foldl (loopBody toLowerCase query) st = st := by
  induction l with
  | nil => rfl
  | cons r l ih =>
    have hr : ¬ score toLowerCase query r > st.highestScore :=
      not_lt.mpr (h r (List.mem_cons_self _ _))
    simp only [List.foldl_cons, loopBody, if_neg hr]
    exact ih (fun p hp => h p (List.mem_cons_of_mem _ hp))

theorem foldl_loopBody_cases (toLowerCase : JSString → JSString) (query : JSString)
    (l : List Report) (st : Best) :
    (l.foldl (loopBody toLowerCase query) st = st ∧
        ∀ p ∈ l, score toLowerCase query p ≤ st.highestScore) ∨
    (∃ r, l.foldl (loopBody toLowerCase query) st
          = { bestMatch := some r, highestScore := score toLowerCase query r } ∧
        st.highestScore < score toLowerCase query r ∧
        ∃ pre post, l = pre ++ r :: post ∧
          (∀ p ∈ pre, score toLowerCase query p < score toLowerCase query r) ∧
          (∀ p ∈ post, score toLowerCase query p ≤ score toLowerCase query r)) := by
  induction l generalizing st with
  | nil => exact Or.inl ⟨rfl, by simp⟩
  | cons a l ih =>
    simp only [List.foldl_cons]
    by_cases ha : score toLowerCase query a > st.highestScore
    · have hstep : loopBody toLowerCase query st a
          = { bestMatch := some a, highestScore := score toLowerCase query a } := by
        simp [loopBody, ha]
      rw [hstep]
      rcases ih { bestMatch := some a, highestScore := score toLowerCase query a } with
        ⟨heq, hle⟩ | ⟨r, heq, hlt, pre, post, hl, hpre, hpost⟩
      · exact Or.inr ⟨a, heq, ha, [], l, rfl, by simp, hle⟩
      · refine Or.inr ⟨r, heq, lt_trans ha hlt, a :: pre, post, by simp [hl], ?_, hpost⟩
        intro p hp
        rcases List.mem_cons.mp hp with rfl | hp
        · exact hlt
        · exact hpre p hp
    · have hstep : loopBody toLowerCase query st a = st := by simp [loopBody, ha]
      rw [hstep]
      rcases ih st with ⟨heq, hle⟩ | ⟨r, heq, hlt, pre, post, hl, hpre, hpost⟩
      · refine Or.inl ⟨heq, ?_⟩
        intro p hp
        rcases List.mem_cons.mp hp with rfl | hp
        · exact not_lt.mp ha
        · exact hle p hp
      · refine Or.inr ⟨r, heq, hlt, a :: pre, post, by simp [hl], ?_, hpost⟩
        intro p hp
        rcases List.mem_cons.mp hp with rfl | hp
        · exact lt_of_le_of_lt (not_lt.mp ha) hlt
        · exact hpre p hp

/-- What the loop leaves in `bestMatch` and `highestScore`: either nothing was selected
and no score is positive, or the first report with the maximal score was selected. -/
theorem findBest_cases (toLowerCase : JSString → JSString) (trustedData : List Report)
    (query : JSString) :
    (findBest toLowerCase trustedData query = { bestMatch := none, highestScore := 0 } ∧
        ∀ p ∈ trustedData, score toLowerCase query p ≤ 0) ∨
    (∃ r, findBest toLowerCase trustedData query
          = { bestMatch := some r, highestScore := score toLowerCase query r } ∧
        0 < score toLowerCase query r ∧ IsFirstMax toLowerCase query trustedData r) :=
  foldl_loopBody_cases toLowerCase query trustedData { bestMatch := none, highestScore := 0 }

theorem IsFirstMax.mem {toLowerCase : JSString → JSString} {query : JSString}
    {trustedData : List Report} {r : Report}
    (h : IsFirstMax toLowerCase query trustedData r) : r ∈ trustedData := by
  obtain ⟨pre, post, hl, -, -⟩ := h
  simp [hl]

theorem IsFirstMax.le {toLowerCase : JSString → JSString} {query : JSString}
    {trustedData : List Report} {r : Report}
    (h : IsFirstMax toLowerCase query trustedData r) :
    ∀ p ∈ trustedData, score toLowerCase query p ≤ score toLowerCase query r := by
  obtain ⟨pre, post, hl, hpre, hpost⟩ := h
  intro p hp
  rw [hl, List.mem_append, List.mem_cons] at hp
  rcases hp with hp | rfl | hp
  · exact le_of_lt (hpre p hp)
  · exact le_refl _
  · exact hpost p hp

/-- The loop selects the first report with the maximal score as soon as that score is
positive. -/
theorem findBest_of_isFirstMax (toLowerCase : JSString → JSString) (trustedData : List Report)
    (query : JSString) (r : Report) (h : IsFirstMax toLowerCase query trustedData r)
    (hpos : 0 < score toLowerCase query r) :
    findBest toLowerCase trustedData query
      = { bestMatch := some r, highestScore := score toLowerCase query r } := by
  obtain ⟨pre, post, hl, hpre, hpost⟩ := h
  unfold findBest
  rw [hl, List.foldl_append, List.foldl_cons]
  have hpreSt : (pre.foldl (loopBody toLowerCase query)
      { bestMatch := none, highestScore := 0 }).highestScore < score toLowerCase query r := by
    rcases foldl_loopBody_cases toLowerCase query pre { bestMatch := none, highestScore := 0 } with
      ⟨heq, -⟩ | ⟨r', heq, -, pre', post', hl', -, -⟩
    · rw [heq]; exact hpos
    · rw [heq]
      exact hpre r' (by simp [hl'])
  have hstep : loopBody toLowerCase query
      (pre.foldl (loopBody toLowerCase query) { bestMatch := none, highestScore := 0 }) r
        = { bestMatch := some r, highestScore := score toLowerCase query r } := by
    simp [loopBody, hpreSt]
  rw [hstep]
  exact foldl_loopBody_of_le toLowerCase query post _ hpost

/-! ## From the loop variables to the verdict -/

theorem str_scam_ne_pending : str "scam" ≠ str "pending" := by decide

theorem str_verified_ne_pending : str "verified" ≠ str "pending" := by decide

theorem str_scam_ne_verified : str "scam" ≠ str "verified" := by decide

theorem str_scam_ne_false : str "scam" ≠ str "false" := by decide

theorem threshold_pos : (0 : ℚ) < 0.3 := by norm_num

theorem matchedVerdict_of_other (r : Report) (h1 : r.status ≠ some (str "scam"))
    (h2 : r.status ≠ some (str "false")) : matchedVerdict r = verifiedVerdict r := by
  unfold matchedVerdict
  rw [if_neg h1, if_neg h2]

theorem matchedVerdict_confidence (r : Report) : (matchedVerdict r).confidence = r.confidence := by
  unfold matchedVerdict
  split
  · rfl
  · split <;> rfl

theorem matchedVerdict_status (r : Report) :
    (matchedVerdict r).status = str "verified" ∨ (matchedVerdict r).status = str "scam" := by
  unfold matchedVerdict
  split
  · exact Or.inr rfl
  · split
    · exact Or.inr rfl
    · exact Or.inl rfl

theorem matchedVerdict_status_ne_pending (r : Report) :
    (matchedVerdict r).status ≠ str "pending" := by
  rcases matchedVerdict_status r with h | h <;> rw [h]
  · exact str_verified_ne_pending
  · exact str_scam_ne_pending

/-- No score above the threshold: the indeterminate verdict is returned. -/
theorem simulate_of_le (toLowerCase : JSString → JSString) (trustedData : List Report)
    (text location : JSString)
    (h : ∀ p ∈ trustedData, score toLowerCase (queryString toLowerCase text location) p ≤ 0.3) :
    simulateVertexAIVerification toLowerCase trustedData text location = pendingVerdict := by
  unfold simulateVertexAIVerification
  rcases findBest_cases toLowerCase trustedData (queryString toLowerCase text location) with
    ⟨heq, -⟩ | ⟨r, heq, -, hbest⟩
  · rw [heq]; rfl
  · rw [heq]
    have hr : ¬ score toLowerCase (queryString toLowerCase text location) r > 0.3 :=
      not_lt.mpr (h r hbest.mem)
    simp only [determineResult, if_neg hr]

/-- The first report with the maximal score decides the verdict when that score exceeds
the threshold. -/
theorem simulate_of_isFirstMax (toLowerCase : JSString → JSString) (trustedData : List Report)
    (text location : JSString) (r : Report)
    (hbest : IsFirstMax toLowerCase (queryString toLowerCase text location) trustedData r)
    (hs : score toLowerCase (queryString toLowerCase text location) r > 0.3) :
    simulateVertexAIVerification toLowerCase trustedData text location = matchedVerdict r := by
  unfold simulateVertexAIVerification
  rw [findBest_of_isFirstMax toLowerCase trustedData _ r hbest (lt_trans threshold_pos hs)]
  simp only [determineResult, if_pos hs]

theorem simulate_cases (toLowerCase : JSString → JSString) (trustedData : List Report)
    (text location : JSString) :
    (simulateVertexAIVerification toLowerCase trustedData text location = pendingVerdict ∧
        ∀ p ∈ trustedData, score toLowerCase (queryString toLowerCase text location) p ≤ 0.3) ∨
    (∃ r, simulateVertexAIVerification toLowerCase trustedData text location = matchedVerdict r ∧
        IsFirstMax toLowerCase (queryString toLowerCase text location) trustedData r ∧
        score toLowerCase (queryString toLowerCase text location) r > 0.3 ∧
        (findBest toLowerCase trustedData (queryString toLowerCase text location)).bestMatch
          = some r) := by
  by_cases h : ∀ p ∈ trustedData, score toLowerCase (queryString toLowerCase text location) p ≤ 0.3
  · exact Or.inl ⟨simulate_of_le toLowerCase trustedData text location h, h⟩
  · right
    push_neg at h
    obtain ⟨p, hp, hps⟩ := h
    rcases findBest_cases toLowerCase trustedData (queryString toLowerCase text location) with
      ⟨-, hle⟩ | ⟨r, heq, -, hbest⟩
    · exact absurd (lt_of_lt_of_le hps (hle p hp)) (not_lt.mpr (le_of_lt threshold_pos))
    · have hs : score toLowerCase (queryString toLowerCase text location) r > 0.3 :=
        lt_of_lt_of_le hps (hbest.le p hp)
      exact ⟨r, simulate_of_isFirstMax toLowerCase trustedData text location r hbest hs, hbest, hs,
        by rw [heq]⟩

theorem scoreOf_nonneg (queryWords : List JSString) (content : JSString) :
    0 ≤ scoreOf queryWords content := by
  unfold scoreOf
  positivity

/-- The value of `score` from the two counts it is made of. -/
theorem score_eq_of_counts (toLowerCase : JSString → JSString) (query : JSString) (r : Report)
    (m n : Nat) (hm : matchCount (split query) (reportContent toLowerCase r) = m)
    (hn : (split query).length = n) :
    score toLowerCase query r = (m : ℚ) / (n : ℚ) := by
  have hpos : 0 < n := hn ▸ split_length_pos query
  unfold score scoreOf
  rw [hm, hn, max_eq_left hpos]

/-! ## The threshold (C1) -/

/-- C1: the verdict is `pending` with confidence 0.45 exactly when no report of the store
scores strictly above 0.3, the score being `matchCount / max(tokenCount, 1)` as a rational;
a highest score of exactly 0.3 gives `pending`, and a best match above 0.3 whose status is
`confirmed` gives `verified`. -/
theorem threshold_boundary (toLowerCase : JSString → JSString) (trustedData : List Report)
    (text location : JSString) :
    (((simulateVertexAIVerification toLowerCase trustedData text location).status = str "pending" ∧
        (simulateVertexAIVerification toLowerCase trustedData text location).confidence = 0.45) ↔
      ¬ ∃ r ∈ trustedData, score toLowerCase (queryString toLowerCase text location) r > 0.3) ∧
    (∀ r, score toLowerCase (queryString toLowerCase text location) r
        = (matchCount (split (queryString toLowerCase text location))
            (reportContent toLowerCase r) : ℚ)
          / (max (split (queryString toLowerCase text location)).length 1 : ℕ)) ∧
    (∀ r ∈ trustedData, score toLowerCase (queryString toLowerCase text location) r = 0.3 →
      (∀ p ∈ trustedData, score toLowerCase (queryString toLowerCase text location) p
        ≤ score toLowerCase (queryString toLowerCase text location) r) →
      (simulateVertexAIVerification toLowerCase trustedData text location).status = str "pending") ∧
    (∀ r, IsFirstMax toLowerCase (queryString toLowerCase text location) trustedData r →
      score toLowerCase (queryString toLowerCase text location) r > 0.3 →
      r.status = some (str "confirmed") →
      (simulateVertexAIVerification toLowerCase trustedData text location).status
        = str "verified") := by
  refine ⟨?_, fun r => rfl, ?_, ?_⟩
  · constructor
    · rintro ⟨hst, -⟩ ⟨r, hr, hs⟩
      rcases simulate_cases toLowerCase trustedData text location with ⟨-, hle⟩ | ⟨b, hv, -, -, -⟩
      · exact absurd hs (not_lt.mpr (hle r hr))
      · rw [hv] at hst
        exact matchedVerdict_status_ne_pending b hst
    · intro h
      have hle : ∀ p ∈ trustedData,
          score toLowerCase (queryString toLowerCase text location) p ≤ 0.3 := by
        intro p hp
        by_contra hc
        exact h ⟨p, hp, not_le.mp hc⟩
      rw [simulate_of_le toLowerCase trustedData text location hle]
      exact ⟨rfl, rfl⟩
  · intro r _ hr hmax
    rw [simulate_of_le toLowerCase trustedData text location (fun p hp => hr ▸ hmax p hp)]
    rfl
  · intro r hbest hs hconf
    rw [simulate_of_isFirstMax toLowerCase trustedData text location r hbest hs]
    unfold matchedVerdict
    rw [hconf]
    rw [if_neg (by decide), if_neg (by decide)]
    rfl

/-- Witness for C1: against the flooding report, a ten-token query with three matching
significant tokens scores exactly 0.3 and stays `pending`; with four matching tokens the
score is 0.4 and the `confirmed` report yields `verified`. -/
theorem threshold_boundary_witness :
    score asciiToLowerCase
        (queryString asciiToLowerCase (str "flooding sector water a b c d e f") (str "g"))
        (floodingReport (str "TR-001") (some (str "confirmed"))) = 0.3 ∧
      (simulateVertexAIVerification asciiToLowerCase
        [floodingReport (str "TR-001") (some (str "confirmed"))]
        (str "flooding sector water a b c d e f") (str "g")).status = str "pending" ∧
      (simulateVertexAIVerification asciiToLowerCase
        [floodingReport (str "TR-001") (some (str "confirmed"))]
        (str "flooding sector water levels c d e f") (str "at g")).status = str "verified" := by
  have h3 : score asciiToLowerCase
      (queryString asciiToLowerCase (str "flooding sector water a b c d e f") (str "g"))
      (floodingReport (str "TR-001") (some (str "confirmed"))) = 0.3 := by
    rw [score_eq_of_counts asciiToLowerCase _ _ 3 10 (by decide) (by decide)]
    norm_num
  have h4 : score asciiToLowerCase
      (queryString asciiToLowerCase (str "flooding sector water levels c d e f") (str "at g"))
      (floodingReport (str "TR-001") (some (str "confirmed"))) > 0.3 := by
    rw [score_eq_of_counts asciiToLowerCase _ _ 4 10 (by decide) (by decide)]
    norm_num
  refine ⟨h3, ?_, ?_⟩
  · exact (threshold_boundary asciiToLowerCase
      [floodingReport (str "TR-001") (some (str "confirmed"))]
      (str "flooding sector water a b c d e f") (str "g")).2.2.1 _
        (List.mem_singleton.mpr rfl) h3 (by simp)
  · exact (threshold_boundary asciiToLowerCase
      [floodingReport (str "TR-001") (some (str "confirmed"))]
      (str "flooding sector water levels c d e f") (str "at g")).2.2.2 _
        ⟨[], [], rfl, by simp, by simp⟩ h4 rfl

/-! ## Totality and well-formedness (C2) -/

/-- C2: for all strings and every store (the function is total, so nothing fails) whose
reports carry a confidence in [0,1], the verdict's status is one of `verified`, `scam`,
`pending` and its confidence lies in [0,1]. -/
theorem verdict_well_formed (toLowerCase : JSString → JSString) (trustedData : List Report)
    (text location : JSString)
    (h : ∀ r ∈ trustedData, 0 ≤ r.confidence ∧ r.confidence ≤ 1) :
    ((simulateVertexAIVerification toLowerCase trustedData text location).status = str "verified" ∨
      (simulateVertexAIVerification toLowerCase trustedData text location).status = str "scam" ∨
      (simulateVertexAIVerification toLowerCase trustedData text location).status
        = str "pending") ∧
    0 ≤ (simulateVertexAIVerification toLowerCase trustedData text location).confidence ∧
    (simulateVertexAIVerification toLowerCase trustedData text location).confidence ≤ 1 := by
  rcases simulate_cases toLowerCase trustedData text location with ⟨hv, -⟩ | ⟨r, hv, hbest, -, -⟩
  · rw [hv]
    refine ⟨Or.inr (Or.inr rfl), ?_, ?_⟩ <;> simp only [pendingVerdict] <;> norm_num
  · rw [hv, matchedVerdict_confidence]
    refine ⟨?_, h r hbest.mem⟩
    rcases matchedVerdict_status r with hs | hs
    · exact Or.inl hs
    · exact Or.inr (Or.inl hs)

/-- Witness for C2: the one-report store of the end-to-end scenario, with empty text and
empty location. -/
theorem verdict_well_formed_witness :
    ((simulateVertexAIVerification asciiToLowerCase
        [floodingReport (str "TR-001") (some (str "confirmed"))] [] []).status = str "verified" ∨
      (simulateVertexAIVerification asciiToLowerCase
        [floodingReport (str "TR-001") (some (str "confirmed"))] [] []).status = str "scam" ∨
      (simulateVertexAIVerification asciiToLowerCase
        [floodingReport (str "TR-001") (some (str "confirmed"))] [] []).status = str "pending") ∧
    0 ≤ (simulateVertexAIVerification asciiToLowerCase
        [floodingReport (str "TR-001") (some (str "confirmed"))] [] []).confidence ∧
    (simulateVertexAIVerification asciiToLowerCase
        [floodingReport (str "TR-001") (some (str "confirmed"))] [] []).confidence ≤ 1 :=
  verdict_well_formed asciiToLowerCase [floodingReport (str "TR-001") (some (str "confirmed"))]
    [] [] (by
      intro r hr
      rw [List.mem_singleton.mp hr]
      simp only [floodingReport]
      norm_num)

/-! ## Tie-break (C3) -/

theorem matchedVerdict_cites (r : Report) :
    (str "Ref: " ++ r.id) <:+: (matchedVerdict r).reason := by
  unfold matchedVerdict
  split
  · exact ⟨str "AI Analysis: Matches known misinformation pattern (", str ").", by
      simp [scamVerdict, str]⟩
  · split
    · exact ⟨str "AI Verification: Official sources confirm this event is NOT occurring (",
        str ").", by simp [falseVerdict, str]⟩
    · exact ⟨str "AI Verification: Corroborated by official data (", str ").", by
        simp [verifiedVerdict, str]⟩

/-- C3: a non-pending verdict is the one of a report `r` of the store that has the maximal
score, no earlier report having that score, and its reason cites `Ref: ` followed by the
id of `r`: with equal maximal scores the report that comes first is cited. -/
theorem first_match_cited (toLowerCase : JSString → JSString) (trustedData : List Report)
    (text location : JSString)
    (h : (simulateVertexAIVerification toLowerCase trustedData text location).status
      ≠ str "pending") :
    ∃ pre r post, trustedData = pre ++ r :: post ∧
      (∀ p ∈ trustedData, score toLowerCase (queryString toLowerCase text location) p
        ≤ score toLowerCase (queryString toLowerCase text location) r) ∧
      (∀ p ∈ pre, score toLowerCase (queryString toLowerCase text location) p
        ≠ score toLowerCase (queryString toLowerCase text location) r) ∧
      simulateVertexAIVerification toLowerCase trustedData text location = matchedVerdict r ∧
      (str "Ref: " ++ r.id)
        <:+: (simulateVertexAIVerification toLowerCase trustedData text location).reason := by
  rcases simulate_cases toLowerCase trustedData text location with ⟨hv, -⟩ | ⟨r, hv, hbest, -, -⟩
  · rw [hv] at h
    exact absurd rfl h
  · obtain ⟨pre, post, hl, hpre, hpost⟩ := hbest
    refine ⟨pre, r, post, hl, IsFirstMax.le ⟨pre, post, hl, hpre, hpost⟩,
      fun p hp => ne_of_lt (hpre p hp), hv, ?_⟩
    rw [hv]
    exact matchedVerdict_cites r

theorem floodingReport_score (toLowerCase : JSString → JSString) (query : JSString)
    (id id' : JSString) (status status' : Option JSString) :
    score toLowerCase query (floodingReport id status)
      = score toLowerCase query (floodingReport id' status') := rfl

theorem flooding_query_score (id : JSString) (status : Option JSString) :
    score asciiToLowerCase (queryString asciiToLowerCase (str "flooding") (str "Sector 4"))
      (floodingReport id status) > 0.3 := by
  rw [floodingReport_score asciiToLowerCase _ id [] status none,
    score_eq_of_counts asciiToLowerCase _ _ 2 3 (by decide) (by decide)]
  norm_num

/-- Witness for C3: two reports with the same content, hence the same score, the first
`confirmed` and the second `scam`: the verdict is the one of the first, `TR-001`. -/
theorem first_match_cited_witness :
    simulateVertexAIVerification asciiToLowerCase
        [floodingReport (str "TR-001") (some (str "confirmed")),
          floodingReport (str "TR-002") (some (str "scam"))]
        (str "flooding") (str "Sector 4")
      = verifiedVerdict (floodingReport (str "TR-001") (some (str "confirmed"))) ∧
    ∃ pre r post,
      [floodingReport (str "TR-001") (some (str "confirmed")),
          floodingReport (str "TR-002") (some (str "scam"))] = pre ++ r :: post ∧
      (∀ p ∈ [floodingReport (str "TR-001") (some (str "confirmed")),
          floodingReport (str "TR-002") (some (str "scam"))],
        score asciiToLowerCase (queryString asciiToLowerCase (str "flooding") (str "Sector 4")) p
          ≤ score asciiToLowerCase
            (queryString asciiToLowerCase (str "flooding") (str "Sector 4")) r) ∧
      (∀ p ∈ pre,
        score asciiToLowerCase (queryString asciiToLowerCase (str "flooding") (str "Sector 4")) p
          ≠ score asciiToLowerCase
            (queryString asciiToLowerCase (str "flooding") (str "Sector 4")) r) ∧
      simulateVertexAIVerification asciiToLowerCase
        [floodingReport (str "TR-001") (some (str "confirmed")),
          floodingReport (str "TR-002") (some (str "scam"))]
        (str "flooding") (str "Sector 4") = matchedVerdict r ∧
      (str "Ref: " ++ r.id) <:+: (simulateVertexAIVerification asciiToLowerCase
        [floodingReport (str "TR-001") (some (str "confirmed")),
          floodingReport (str "TR-002") (some (str "scam"))]
        (str "flooding") (str "Sector 4")).reason := by
  have hv : simulateVertexAIVerification asciiToLowerCase
        [floodingReport (str "TR-001") (some (str "confirmed")),
          floodingReport (str "TR-002") (some (str "scam"))]
        (str "flooding") (str "Sector 4")
      = verifiedVerdict (floodingReport (str "TR-001") (some (str "confirmed"))) := by
    rw [simulate_of_isFirstMax asciiToLowerCase
      [floodingReport (str "TR-001") (some (str "confirmed")),
        floodingReport (str "TR-002") (some (str "scam"))] _ _
      (floodingReport (str "TR-001") (some (str "confirmed")))
      ⟨[], [floodingReport (str "TR-002") (some (str "scam"))], rfl, by simp, by
        intro p hp
        rw [List.mem_singleton.mp hp]
        exact le_of_eq (floodingReport_score _ _ _ _ _ _)⟩
      (flooding_query_score _ _)]
    exact matchedVerdict_of_other _ (by decide) (by decide)
  refine ⟨hv, first_match_cited asciiToLowerCase _ _ _ ?_⟩
  rw [hv]
  exact str_verified_ne_pending

/-! ## Ground-truth mapping (C4) -/

/-- C4: when the best match `r` (first report with the maximal score) scores above 0.3,
status `false` gives verdict status `scam` (not `false`) with the "NOT occurring" reason
citing the id of `r`, and status `scam` gives verdict status `scam` with the
"misinformation pattern" reason citing the id of `r`. -/
theorem ground_truth_mapping (toLowerCase : JSString → JSString) (trustedData : List Report)
    (text location : JSString) (r : Report)
    (hbest : IsFirstMax toLowerCase (queryString toLowerCase text location) trustedData r)
    (hs : score toLowerCase (queryString toLowerCase text location) r > 0.3) :
    (r.status = some (str "false") →
      (simulateVertexAIVerification toLowerCase trustedData text location).status = str "scam" ∧
      (simulateVertexAIVerification toLowerCase trustedData text location).status ≠ str "false" ∧
      (str "Official sources confirm this event is NOT occurring (Ref: " ++ r.id ++ str ").")
        <:+: (simulateVertexAIVerification toLowerCase trustedData text location).reason) ∧
    (r.status = some (str "scam") →
      (simulateVertexAIVerification toLowerCase trustedData text location).status = str "scam" ∧
      (str "Matches known misinformation pattern (Ref: " ++ r.id ++ str ").")
        <:+: (simulateVertexAIVerification toLowerCase trustedData text location).reason) := by
  rw [simulate_of_isFirstMax toLowerCase trustedData text location r hbest hs]
  constructor
  · intro hst
    have hv : matchedVerdict r = falseVerdict r := by
      unfold matchedVerdict
      rw [hst, if_neg (by decide), if_pos rfl]
    rw [hv]
    exact ⟨rfl, str_scam_ne_false, str "AI Verification: ", [], by simp [falseVerdict, str]⟩
  · intro hst
    have hv : matchedVerdict r = scamVerdict r := by
      unfold matchedVerdict
      rw [hst, if_pos rfl]
    rw [hv]
    exact ⟨rfl, str "AI Analysis: ", [], by simp [scamVerdict, str]⟩

/-- Witness for C4: the flooding report ground-truthed `false`, matched by the query
`flooding` / `Sector 4`. -/
theorem ground_truth_mapping_witness :
    (simulateVertexAIVerification asciiToLowerCase
        [floodingReport (str "TR-007") (some (str "false"))]
        (str "flooding") (str "Sector 4")).status = str "scam" ∧
    (str "Official sources confirm this event is NOT occurring (Ref: " ++ str "TR-007" ++ str ").")
      <:+: (simulateVertexAIVerification asciiToLowerCase
        [floodingReport (str "TR-007") (some (str "false"))]
        (str "flooding") (str "Sector 4")).reason :=
  have h := (ground_truth_mapping asciiToLowerCase
    [floodingReport (str "TR-007") (some (str "false"))] (str "flooding") (str "Sector 4")
    (floodingReport (str "TR-007") (some (str "false")))
    ⟨[], [], rfl, by simp, by simp⟩ (flooding_query_score _ _)).1 rfl
  ⟨h.1, h.2.2⟩

/-! ## Confidence passthrough (C5) -/

/-- C5: a verdict with status `verified` or `scam` carries exactly the stored confidence
of the selected report (the final `bestMatch`, first report with the maximal score),
whatever the score above 0.3 is; the pending verdict carries the fixed 0.45. -/
theorem confidence_passthrough (toLowerCase : JSString → JSString) (trustedData : List Report)
    (text location : JSString) :
    (((simulateVertexAIVerification toLowerCase trustedData text location).status = str "verified" ∨
        (simulateVertexAIVerification toLowerCase trustedData text location).status = str "scam") →
      ∃ r, (findBest toLowerCase trustedData (queryString toLowerCase text location)).bestMatch
          = some r ∧
        IsFirstMax toLowerCase (queryString toLowerCase text location) trustedData r ∧
        (simulateVertexAIVerification toLowerCase trustedData text location).confidence
          = r.confidence) ∧
    (∀ r, IsFirstMax toLowerCase (queryString toLowerCase text location) trustedData r →
      score toLowerCase (queryString toLowerCase text location) r > 0.3 →
      (simulateVertexAIVerification toLowerCase trustedData text location).confidence
        = r.confidence) ∧
    ((simulateVertexAIVerification toLowerCase trustedData text location).status = str "pending" →
      (simulateVertexAIVerification toLowerCase trustedData text location).confidence = 0.45) := by
  refine ⟨?_, ?_, ?_⟩
  · intro h
    rcases simulate_cases toLowerCase trustedData text location with
      ⟨hv, -⟩ | ⟨r, hv, hbest, -, hfb⟩
    · rw [hv] at h
      rcases h with h | h
      · exact absurd h.symm str_verified_ne_pending
      · exact absurd h.symm str_scam_ne_pending
    · exact ⟨r, hfb, hbest, by rw [hv, matchedVerdict_confidence]⟩
  · intro r hbest hs
    rw [simulate_of_isFirstMax toLowerCase trustedData text location r hbest hs,
      matchedVerdict_confidence]
  · intro h
    rcases simulate_cases toLowerCase trustedData text location with ⟨hv, -⟩ | ⟨r, hv, -, -, -⟩
    · rw [hv]; rfl
    · rw [hv] at h
      exact absurd h (matchedVerdict_status_ne_pending r)

/-- Witness for C5: the flooding report (confidence 0.98) matched with score 2/3: the
verdict's confidence is 0.98. -/
theorem confidence_passthrough_witness :
    (simulateVertexAIVerification asciiToLowerCase
        [floodingReport (str "TR-001") (some (str "confirmed"))]
        (str "flooding") (str "Sector 4")).confidence = 0.98 :=
  (confidence_passthrough asciiToLowerCase
    [floodingReport (str "TR-001") (some (str "confirmed"))] (str "flooding") (str "Sector 4")).2.1
    (floodingReport (str "TR-001") (some (str "confirmed")))
    ⟨[], [], rfl, by simp, by simp⟩ (flooding_query_score _ _)

/-! ## Short tokens (C6) -/

theorem matchCount_eq_zero_of_short (queryWords : List JSString) (content : JSString)
    (h : ∀ w ∈ queryWords, w.length ≤ 3) : matchCount queryWords content = 0 := by
  rw [matchCount_eq_filter, List.length_eq_zero, List.filter_eq_nil_iff]
  intro w hw
  have := h w hw
  simp only [Bool.and_eq_true, decide_eq_true_eq, not_and]
  intro h3
  omega

/-- C6: when every token of the lower-cased query has length at most 3, `matchCount` is 0
for every report and the verdict is the pending one (status `pending`, confidence 0.45),
whatever the store holds. -/
theorem short_tokens_pending (toLowerCase : JSString → JSString) (trustedData : List Report)
    (text location : JSString)
    (h : ∀ w ∈ split (queryString toLowerCase text location), w.length ≤ 3) :
    (∀ r, matchCount (split (queryString toLowerCase text location))
        (reportContent toLowerCase r) = 0) ∧
    simulateVertexAIVerification toLowerCase trustedData text location = pendingVerdict ∧
    (simulateVertexAIVerification toLowerCase trustedData text location).status = str "pending" ∧
    (simulateVertexAIVerification toLowerCase trustedData text location).confidence = 0.45 := by
  have hm : ∀ r, matchCount (split (queryString toLowerCase text location))
      (reportContent toLowerCase r) = 0 :=
    fun r => matchCount_eq_zero_of_short _ _ h
  have hv : simulateVertexAIVerification toLowerCase trustedData text location
      = pendingVerdict := by
    apply simulate_of_le
    intro p _
    unfold score scoreOf
    rw [hm p]
    norm_num
  exact ⟨hm, hv, by rw [hv]; rfl, by rw [hv]; rfl⟩

/-- Witness for C6: text `is it ok`, location `at a`, against the flooding report. -/
theorem short_tokens_pending_witness :
    (∀ w ∈ split (queryString asciiToLowerCase (str "is it ok") (str "at a")), w.length ≤ 3) ∧
    simulateVertexAIVerification asciiToLowerCase
      [floodingReport (str "TR-001") (some (str "confirmed"))] (str "is it ok") (str "at a")
        = pendingVerdict :=
  ⟨by decide,
    (short_tokens_pending asciiToLowerCase [floodingReport (str "TR-001") (some (str "confirmed"))]
      (str "is it ok") (str "at a") (by decide)).2.1⟩

/-! ## Score bounds (C7) -/

/-- C7: the score `matchCount / max(tokenCount, 1)` lies between 0 and the ratio of the
number of tokens longer than 3 to the number of all tokens, which is at most 1;
`tokenCount` is the length of the unfiltered token list and `matchCount` is the number of
tokens (with repetitions) that are longer than 3 and occur as a contiguous part of the
report's lower-cased `event location details` content. -/
theorem score_bounds (toLowerCase : JSString → JSString) (query : JSString) (r : Report) :
    score toLowerCase query r
      = (matchCount (split query) (reportContent toLowerCase r) : ℚ)
        / (max (split query).length 1 : ℕ) ∧
    matchCount (split query) (reportContent toLowerCase r)
      = ((split query).filter (fun w => decide (3 < w.length ∧
          w <:+: toLowerCase (r.event ++ str " " ++ r.location ++ str " " ++ r.details)))).length ∧
    0 ≤ score toLowerCase query r ∧
    score toLowerCase query r
      ≤ (((split query).filter (fun w => decide (3 < w.length))).length : ℚ)
        / ((split query).length : ℚ) ∧
    (((split query).filter (fun w => decide (3 < w.length))).length : ℚ)
        / ((split query).length : ℚ) ≤ 1 := by
  have hpos : 0 < (split query).length := split_length_pos query
  have hposq : (0 : ℚ) < ((split query).length : ℚ) := by exact_mod_cast hpos
  refine ⟨rfl, ?_, scoreOf_nonneg _ _, ?_, ?_⟩
  · rw [matchCount_eq_filter]
    congr 1
    apply List.filter_congr
    intro w _
    simp only [reportContent, gt_iff_lt, Bool.decide_and, Bool.and_eq_true, decide_eq_true_eq]
    rw [Bool.eq_iff_iff]
    simp [includes_iff]
  · unfold score scoreOf
    rw [max_eq_left hpos]
    apply div_le_div_of_nonneg_right _ (le_of_lt hposq)
    exact_mod_cast matchCount_le_significant _ _
  · rw [div_le_one hposq]
    exact_mod_cast List.length_filter_le _ _

/-! ## The default branch (C10) -/

/-- C10: when the best match `r` scores above 0.3, the verdict's status is `verified`
exactly when the status of `r` is neither `scam` nor `false`; every other status value,
an absent one included, gives `verified` with the confidence of `r`. -/
theorem verified_is_default (toLowerCase : JSString → JSString) (trustedData : List Report)
    (text location : JSString) (r : Report)
    (hbest : IsFirstMax toLowerCase (queryString toLowerCase text location) trustedData r)
    (hs : score toLowerCase (queryString toLowerCase text location) r > 0.3) :
    ((simulateVertexAIVerification toLowerCase trustedData text location).status = str "verified" ↔
      (r.status ≠ some (str "scam") ∧ r.status ≠ some (str "false"))) ∧
    ((r.status ≠ some (str "scam") ∧ r.status ≠ some (str "false")) →
      simulateVertexAIVerification toLowerCase trustedData text location = verifiedVerdict r ∧
      (simulateVertexAIVerification toLowerCase trustedData text location).confidence
        = r.confidence) := by
  rw [simulate_of_isFirstMax toLowerCase trustedData text location r hbest hs]
  refine ⟨⟨?_, fun h => ?_⟩, fun h => ?_⟩
  · intro hv
    constructor
    · intro hst
      have : matchedVerdict r = scamVerdict r := by
        unfold matchedVerdict
        rw [if_pos hst]
      rw [this] at hv
      exact str_scam_ne_verified hv
    · intro hst
      have : matchedVerdict r = falseVerdict r := by
        unfold matchedVerdict
        rw [hst, if_neg (by decide), if_pos rfl]
      rw [this] at hv
      exact str_scam_ne_verified hv
  · rw [matchedVerdict_of_other r h.1 h.2]
    rfl
  · rw [matchedVerdict_of_other r h.1 h.2]
    exact ⟨rfl, rfl⟩

/-- Witness for C10: the flooding report without a `status` field, and the same report
with the unknown status `rumour`, both yield `verified` with confidence 0.98. -/
theorem verified_is_default_witness :
    simulateVertexAIVerification asciiToLowerCase [floodingReport (str "TR-001") none]
        (str "flooding") (str "Sector 4") = verifiedVerdict (floodingReport (str "TR-001") none) ∧
    (simulateVertexAIVerification asciiToLowerCase
        [floodingReport (str "TR-001") (some (str "rumour"))]
        (str "flooding") (str "Sector 4")).confidence = 0.98 :=
  ⟨((verified_is_default asciiToLowerCase [floodingReport (str "TR-001") none]
      (str "flooding") (str "Sector 4") (floodingReport (str "TR-001") none)
      ⟨[], [], rfl, by simp, by simp⟩ (flooding_query_score _ _)).2
        ⟨by decide, by decide⟩).1,
    ((verified_is_default asciiToLowerCase [floodingReport (str "TR-001") (some (str "rumour"))]
      (str "flooding") (str "Sector 4") (floodingReport (str "TR-001") (some (str "rumour")))
      ⟨[], [], rfl, by simp, by simp⟩ (flooding_query_score _ _)).2
        ⟨by decide, by decide⟩).2⟩

/-! ## The end-to-end scenario (C9) -/

theorem floodingReport_content (toLowerCase : JSString → JSString)
    (id : JSString) (status : Option JSString) :
    reportContent toLowerCase (floodingReport id status)
      = reportContent toLowerCase (floodingReport [] none) := rfl

/-- C9, as stated, fails: in the end-to-end scenario the token `severe` does not occur in
the content `flooding sector 4 water levels dangerous`, so `matchCount` is 3, not 4, and
the score is 0.6, not 0.8. -/
theorem end_to_end_counterexample :
    includes (reportContent asciiToLowerCase
        (floodingReport (str "TR-001") (some (str "confirmed")))) (str "severe") = false ∧
    matchCount (split (queryString asciiToLowerCase (str "severe flooding danger") (str "Sector 4")))
        (reportContent asciiToLowerCase
          (floodingReport (str "TR-001") (some (str "confirmed")))) ≠ 4 ∧
    score asciiToLowerCase
        (queryString asciiToLowerCase (str "severe flooding danger") (str "Sector 4"))
        (floodingReport (str "TR-001") (some (str "confirmed"))) ≠ 0.8 := by
  refine ⟨by decide, by decide, ?_⟩
  rw [score_eq_of_counts asciiToLowerCase _ _ 3 5 (by decide) (by decide)]
  norm_num

/-- C9, amended: in the end-to-end scenario (any id) the query has the 5 tokens `severe`,
`flooding`, `danger`, `sector`, `4`, of which 4 are longer than 3; three of these
(`flooding`, `danger`, `sector`) occur in the report's lower-cased content and `severe`
does not, so `matchCount` = 3 and the score is 0.6 > 0.3; the verdict has status
`verified`, confidence 0.98 and a reason containing `Ref: ` followed by the id. -/
theorem end_to_end_scenario (id : JSString) :
    split (queryString asciiToLowerCase (str "severe flooding danger") (str "Sector 4"))
      = [str "severe", str "flooding", str "danger", str "sector", str "4"] ∧
    (split (queryString asciiToLowerCase (str "severe flooding danger") (str "Sector 4"))).filter
        (fun w => decide (w.length > 3))
      = [str "severe", str "flooding", str "danger", str "sector"] ∧
    reportContent asciiToLowerCase (floodingReport id (some (str "confirmed")))
      = str "flooding sector 4 water levels dangerous" ∧
    (split (queryString asciiToLowerCase (str "severe flooding danger") (str "Sector 4"))).filter
        (fun w => decide (w.length > 3) &&
          includes (reportContent asciiToLowerCase (floodingReport id (some (str "confirmed")))) w)
      = [str "flooding", str "danger", str "sector"] ∧
    matchCount (split (queryString asciiToLowerCase (str "severe flooding danger") (str "Sector 4")))
        (reportContent asciiToLowerCase (floodingReport id (some (str "confirmed")))) = 3 ∧
    score asciiToLowerCase
        (queryString asciiToLowerCase (str "severe flooding danger") (str "Sector 4"))
        (floodingReport id (some (str "confirmed"))) = 0.6 ∧
    (simulateVertexAIVerification asciiToLowerCase [floodingReport id (some (str "confirmed"))]
        (str "severe flooding danger") (str "Sector 4")).status = str "verified" ∧
    (simulateVertexAIVerification asciiToLowerCase [floodingReport id (some (str "confirmed"))]
        (str "severe flooding danger") (str "Sector 4")).confidence = 0.98 ∧
    (str "Ref: " ++ id) <:+:
      (simulateVertexAIVerification asciiToLowerCase [floodingReport id (some (str "confirmed"))]
        (str "severe flooding danger") (str "Sector 4")).reason := by
  have hscore : score asciiToLowerCase
      (queryString asciiToLowerCase (str "severe flooding danger") (str "Sector 4"))
      (floodingReport id (some (str "confirmed"))) = 0.6 := by
    rw [floodingReport_score asciiToLowerCase _ id [] _ none,
      score_eq_of_counts asciiToLowerCase _ _ 3 5 (by decide) (by decide)]
    norm_num
  have hv : simulateVertexAIVerification asciiToLowerCase
      [floodingReport id (some (str "confirmed"))] (str "severe flooding danger") (str "Sector 4")
        = verifiedVerdict (floodingReport id (some (str "confirmed"))) := by
    rw [simulate_of_isFirstMax asciiToLowerCase [floodingReport id (some (str "confirmed"))] _ _
      (floodingReport id (some (str "confirmed"))) ⟨[], [], rfl, by simp, by simp⟩
      (by rw [hscore]; norm_num)]
    exact matchedVerdict_of_other _ (by simp [floodingReport]; decide)
      (by simp [floodingReport]; decide)
  rw [floodingReport_content asciiToLowerCase id, hv]
  refine ⟨by decide, by decide, by decide, by decide, by decide, ?_, rfl, rfl, ?_⟩
  · exact hscore
  · exact ⟨str "AI Verification: Corroborated by official data (", str ").", by
      simp [verifiedVerdict, floodingReport, str]⟩

/-! ## Tokens (C8) -/

theorem splitLoop_length (s : JSString) (inSep : Bool) (cur : JSString) :
    (splitLoop s inSep cur).length = 1 + countRuns isWhiteSpace inSep s := by
  induction s generalizing inSep cur with
  | nil => simp [splitLoop, countRuns]
  | cons u rest ih =>
    unfold splitLoop countRuns
    by_cases hu : isWhiteSpace u = true
    · cases inSep
      · simp [hu, ih]; omega
      · simp [hu, ih]
    · simp [hu, ih]

theorem countRuns_alternate (b : Bool) (s : JSString) :
    countRuns isWhiteSpace b s + (if b then 1 else 0)
      = countRuns (fun u => !isWhiteSpace u) (!b) s
        + (if lastIsWhiteSpace b s then 1 else 0) := by
  induction s generalizing b with
  | nil => simp [countRuns, lastIsWhiteSpace]
  | cons u rest ih =>
    unfold countRuns lastIsWhiteSpace
    by_cases hu : isWhiteSpace u = true
    · have h := ih true
      simp only [hu] at h ⊢
      cases b <;> simp at h ⊢ <;> omega
    · have hu' : isWhiteSpace u = false := by simpa using hu
      have h := ih false
      simp only [hu'] at h ⊢
      cases b <;> simp at h ⊢ <;> omega

theorem wordCount_add_leadingEmpty (s : JSString) :
    wordCount s + leadingEmpty s = countRuns (fun u => !isWhiteSpace u) true s + 1 := by
  cases s with
  | nil => simp [wordCount, leadingEmpty, countRuns]
  | cons u rest =>
    unfold wordCount leadingEmpty countRuns
    by_cases hu : isWhiteSpace u = true
    · simp [hu]
    · have hu' : isWhiteSpace u = false := by simpa using hu
      simp [hu']
      omega

/-- The number of tokens: one per maximal non-white-space run, plus the empty tokens at
the two ends. -/
theorem split_length (s : JSString) :
    (split s).length = wordCount s + leadingEmpty s + trailingEmpty s := by
  have h1 := splitLoop_length s false []
  have h2 := countRuns_alternate false s
  have h3 := wordCount_add_leadingEmpty s
  simp only [Bool.not_false, Bool.false_eq_true, if_false] at h2
  unfold split trailingEmpty
  omega

theorem splitLoop_nonempty_count (s : JSString) (inSep : Bool) (cur : JSString)
    (hinv : inSep = true → cur = []) :
    ((splitLoop s inSep cur).filter (fun w => decide (w ≠ []))).length
      = countRuns (fun u => !isWhiteSpace u) (decide (cur ≠ [])) s
        + (if cur = [] then 0 else 1) := by
  induction s generalizing inSep cur with
  | nil =>
    by_cases hc : cur = []
    · simp [splitLoop, countRuns, hc]
    · simp [splitLoop, countRuns, hc]
  | cons u rest ih =>
    unfold splitLoop countRuns
    by_cases hu : isWhiteSpace u = true
    · cases inSep
      · have h := ih true [] (fun _ => rfl)
        by_cases hc : cur = []
        · simp [hu, hc] at h ⊢
          exact h
        · simp [hu, hc, List.filter_cons] at h ⊢
          omega
      · have hc : cur = [] := hinv rfl
        have h := ih true [] (fun _ => rfl)
        subst hc
        simp [hu] at h ⊢
        exact h
    · have hu' : isWhiteSpace u = false := by simpa using hu
      have h := ih false (u :: cur) (fun hf => absurd hf (by decide))
      by_cases hc : cur = []
      · simp [hu', hc] at h ⊢
        omega
      · simp [hu', hc] at h ⊢
        omega

theorem splitLoop_no_whiteSpace (s : JSString) (inSep : Bool) (cur : JSString)
    (hcur : ∀ u ∈ cur, isWhiteSpace u = false) :
    ∀ w ∈ splitLoop s inSep cur, ∀ u ∈ w, isWhiteSpace u = false := by
  induction s generalizing inSep cur with
  | nil =>
    intro w hw u hu
    simp only [splitLoop, List.mem_singleton] at hw
    subst hw
    exact hcur u (List.mem_reverse.mp hu)
  | cons a rest ih =>
    unfold splitLoop
    by_cases ha : isWhiteSpace a = true
    · cases inSep
      · simp only [ha, if_true, Bool.false_eq_true, if_false]
        intro w hw u hu
        rcases List.mem_cons.mp hw with rfl | hw
        · exact hcur u (List.mem_reverse.mp hu)
        · exact ih true [] (by simp) w hw u hu
      · simp only [ha, if_true]
        exact ih true cur hcur
    · have ha' : isWhiteSpace a = false := by simpa using ha
      simp only [ha', Bool.false_eq_true, if_false]
      apply ih false (a :: cur)
      intro u hu
      rcases List.mem_cons.mp hu with rfl | hu
      · exact ha'
      · exact hcur u hu

/-- C8, as stated, fails: for text `flooding sector` and an empty location the query is
`flooding sector ` (ending with the separating space) and its split ends with an empty
token, so `tokenCount` is 3 while the query has 2 maximal non-white-space runs. -/
theorem tokens_counterexample :
    [] ∈ split (queryString asciiToLowerCase (str "flooding sector") (str "")) ∧
    (split (queryString asciiToLowerCase (str "flooding sector") (str ""))).length = 3 ∧
    wordCount (queryString asciiToLowerCase (str "flooding sector") (str "")) = 2 := by
  refine ⟨by decide, by decide, by decide⟩

/-- C8, amended: the tokens of the lower-cased query contain no white space; the
non-empty tokens are as many as the maximal non-white-space runs of the query; and
`tokenCount` is that number plus one when the query is empty or begins with white space
plus one when the query is non-empty and ends with white space.  For text
`flooding sector` and an empty location the tokens are `flooding`, `sector` and an empty
token, so `tokenCount` is 3. -/
theorem token_count (toLowerCase : JSString → JSString) (text location : JSString) :
    (∀ w ∈ split (queryString toLowerCase text location), ∀ u ∈ w, isWhiteSpace u = false) ∧
    ((split (queryString toLowerCase text location)).filter (fun w => decide (w ≠ []))).length
      = wordCount (queryString toLowerCase text location) ∧
    (split (queryString toLowerCase text location)).length
      = wordCount (queryString toLowerCase text location)
        + leadingEmpty (queryString toLowerCase text location)
        + trailingEmpty (queryString toLowerCase text location) ∧
    split (queryString asciiToLowerCase (str "flooding sector") (str ""))
      = [str "flooding", str "sector", []] := by
  refine ⟨splitLoop_no_whiteSpace _ false [] (by simp), ?_, split_length _, by decide⟩
  have h := splitLoop_nonempty_count (queryString toLowerCase text location) false []
    (fun hf => absurd hf (by decide))
  simpa [wordCount] using h

end CrisisVerify
